import Mathlib

/-!
Verification of the analysis pipeline of backend/app/bias_engine.py:
CSV normalization, preprocessing (validity, range, IQR outlier, dedup),
the six bias detectors, and the aggregating run_analysis.

Modelling conventions: 64-bit floats are modelled as exact rationals,
datetimes as epoch seconds (Int), nullable cells as Option values.
The polars DataFrame.unique call uses its default keep = "any", whose
contract does not fix which duplicate survives; that step is therefore
parameterized by an admissible resolution choice (keep-first versus
keep-last). The one square root used by the anchoring detector is taken
as a function parameter, since every stated property holds for all of
its implementations.
-/

namespace BiasEngine

/-- One trade row after CSV normalization (parse_csv_to_dataframe). -/
structure Trade where
  timestamp : Option Int
  action : String
  asset : Option String
  quantity : Option ℚ
  price : Option ℚ
  pnl : Option ℚ
  balance : Option ℚ
deriving DecidableEq, Repr

/-- A normalized table: rows plus presence flags for the two optional
columns (the source branches on COL_PNL / COL_BALANCE in df.columns;
when a flag is false the corresponding row fields are never read). -/
structure DF where
  hasPnl : Bool
  hasBalance : Bool
  rows : List Trade
deriving DecidableEq, Repr

/-- str.strip_chars(): remove leading and trailing whitespace. -/
def trimStr (s : String) : String :=
  String.mk (((s.toList.dropWhile Char.isWhitespace).reverse.dropWhile
    Char.isWhitespace).reverse)

/-- Insert into a sorted list, before the first element it compares le
to, so the overall sort below is stable. -/
def orderedInsert (le : α → α → Bool) (a : α) : List α → List α
  | [] => [a]
  | b :: l => if le a b then a :: b :: l else b :: orderedInsert le a l

/-- Stable insertion sort used for every sort of the model. -/
def sortL (le : α → α → Bool) : List α → List α
  | [] => []
  | a :: l => orderedInsert le a (sortL le l)

/-- The five validity predicates of preprocess_trades (step 1). A present
rational is always finite, so the is_finite tests reduce to presence. -/
def validRow (r : Trade) : Bool :=
  r.timestamp.isSome
    && (r.action == "buy" || r.action == "sell")
    && (match r.asset with
        | some a => trimStr a != ""
        | none => false)
    && (match r.quantity with
        | some q => decide (0 < q)
        | none => false)
    && (match r.price with
        | some p => decide (0 < p)
        | none => false)

/-- Step 2 of preprocess_trades: the timestamp range filter. The source
compares dt.epoch(s) with >= 631152000 and <= 1893456000, both inclusive. -/
def inTsRange (r : Trade) : Bool :=
  match r.timestamp with
  | some t => decide (631152000 ≤ t) && decide (t ≤ 1893456000)
  | none => false

/-- Mean of a list of rationals, 0 on the empty list; only used under
nonemptiness guards mirroring the null checks of the source. -/
def meanD (l : List ℚ) : ℚ :=
  if l.length = 0 then 0 else l.sum / (l.length : ℚ)

/-- Series.quantile with polars' default nearest interpolation: the
sorted value at index round(q * (n - 1)). -/
def quantileNearest (l : List ℚ) (q : ℚ) : Option ℚ :=
  let s := sortL (fun a b => decide (a ≤ b)) l
  if s.length = 0 then none
  else s.get? (Int.toNat ⌊q * ((s.length : ℚ) - 1) + 1/2⌋)

/-- Step 3 of preprocess_trades for one column: IQR outlier removal.
Null cells are kept; the step is skipped when the table or the non-null
value set has fewer than 10 entries or the IQR is not positive. -/
def outlierFilterCol (proj : Trade → Option ℚ) (rows : List Trade) : List Trade :=
  if rows.length < 10 then rows
  else if (rows.filterMap proj).length < 10 then rows
  else
    match quantileNearest (rows.filterMap proj) (1/4),
        quantileNearest (rows.filterMap proj) (3/4) with
    | some q1, some q3 =>
      if q3 - q1 ≤ 0 then rows
      else
        rows.filter (fun r =>
          match proj r with
          | none => true
          | some v =>
              decide (q1 - 3/2 * (q3 - q1) ≤ v) && decide (v ≤ q3 + 3/2 * (q3 - q1)))
    | _, _ => rows

/-- The deduplication key of preprocess_trades step 4. -/
def rowKey (r : Trade) : Option Int × Option String × String × Option ℚ × Option ℚ :=
  (r.timestamp, r.asset, r.action, r.quantity, r.price)

def dedupFirstAux (seen : List (Option Int × Option String × String × Option ℚ × Option ℚ)) :
    List Trade → List Trade
  | [] => []
  | r :: rest =>
      if rowKey r ∈ seen then dedupFirstAux seen rest
      else r :: dedupFirstAux (rowKey r :: seen) rest

/-- Keep the first occurrence of every key. -/
def dedupFirst (rows : List Trade) : List Trade := dedupFirstAux [] rows

/-- Keep the last occurrence of every key. -/
def dedupLast : List Trade → List Trade
  | [] => []
  | r :: rest =>
      if rest.any (fun x => decide (rowKey x = rowKey r)) then dedupLast rest
      else r :: dedupLast rest

/-- DataFrame.unique with default keep = "any": the library contract does
not fix which duplicate survives, so the step is modelled parametrically;
keep-first and keep-last are both admissible resolutions. -/
def dedupKeep (keepLast : Bool) (rows : List Trade) : List Trade :=
  if keepLast then dedupLast rows else dedupFirst rows

/-- Sort key comparison: by timestamp ascending, nulls first (polars). -/
def tsLe (a b : Trade) : Bool :=
  match a.timestamp, b.timestamp with
  | none, _ => true
  | some _, none => false
  | some x, some y => decide (x ≤ y)

def sortByTs (rows : List Trade) : List Trade := sortL tsLe rows

/-- The stats dict of preprocess_trades; rows_after is only set on paths
that reach it (it is absent for an empty input table). -/
structure Stats where
  rowsBefore : Nat
  droppedInvalid : Nat
  droppedOutliers : Nat
  droppedDuplicates : Nat
  rowsAfter : Option Nat
deriving DecidableEq, Repr

def preprocessTrades (keepLast : Bool) (df : DF) : DF × Stats :=
  let rowsBefore := df.rows.length
  if df.rows.length = 0 then
    (df, ⟨rowsBefore, 0, 0, 0, none⟩)
  else
    let r1 := df.rows.filter validRow
    if r1.length = 0 then
      (⟨df.hasPnl, df.hasBalance, r1⟩, ⟨rowsBefore, 0, 0, 0, some 0⟩)
    else
      let r2 := r1.filter inTsRange
      let droppedInvalid := rowsBefore - r2.length
      let r3 := if df.hasPnl then outlierFilterCol Trade.pnl r2 else r2
      let r4 := if df.hasBalance then outlierFilterCol Trade.balance r3 else r3
      let droppedOutliers := (r2.length - r3.length) + (r3.length - r4.length)
      let r5 := dedupKeep keepLast r4
      let droppedDuplicates := r4.length - r5.length
      let r6 := sortByTs r5
      (⟨df.hasPnl, df.hasBalance, r6⟩,
        ⟨rowsBefore, droppedInvalid, droppedOutliers, droppedDuplicates, some r5.length⟩)

/-- Python round: nearest integer, ties to even. -/
def pyRound (x : ℚ) : Int :=
  let f := ⌊x⌋
  let r := x - (f : ℚ)
  if r < 1/2 then f
  else if 1/2 < r then f + 1
  else if f % 2 = 0 then f else f + 1

/-- A bias finding; the presentation fields of the source dict (title,
description, details) are omitted, keeping kind, severity and score. -/
structure Finding where
  btype : String
  severity : String
  score : Int
deriving DecidableEq, Repr

/-- Severity breakpoints 75/50/25 (overtrading, disposition, anchoring,
confirmation). -/
def sevStd (s : ℚ) : String :=
  if 75 < s then "critical" else if 50 < s then "high"
  else if 25 < s then "medium" else "low"

/-- Severity breakpoints 70/45/25 (loss aversion, revenge trading). -/
def sevAlt (s : ℚ) : String :=
  if 70 < s then "critical" else if 45 < s then "high"
  else if 25 < s then "medium" else "low"

/-- dt.truncate("1h") on epoch seconds: floor to the hour. -/
def hourBucket (t : Int) : Int := t - t.emod 3600

def rowHour (r : Trade) : Option Int := r.timestamp.map hourBucket

/-- The distinct group keys of group_by over the hour bucket. -/
def hourKeys (rows : List Trade) : List (Option Int) := (rows.map rowHour).dedup

def hourCount (rows : List Trade) (k : Option Int) : Nat :=
  rows.countP (fun r => decide (rowHour r = k))

def maxPerHour (rows : List Trade) : Nat :=
  ((hourKeys rows).map (hourCount rows)).foldr max 0

/-- Mean of the hourly group sizes; the source substitutes 1.0 when the
mean is null or not positive. -/
def meanPerHour (rows : List Trade) : ℚ :=
  if (hourKeys rows).length = 0 then 1
  else
    let m : ℚ := (rows.length : ℚ) / ((hourKeys rows).length : ℚ)
    if m ≤ 0 then 1 else m

/-- Row indices whose 1-hour bucket holds more than 5 trades. -/
def freqIndices (rows : List Trade) : List Nat :=
  (List.range rows.length).filter (fun i =>
    match rows.get? i with
    | some r => decide (5 < hourCount rows (rowHour r))
    | none => false)

/-- notional / balance, with a zero divisor replaced by null before the
division; null propagates from any of the three cells. -/
def pctBal (r : Trade) : Option ℚ :=
  match r.quantity, r.price, r.balance with
  | some q, some p, some b => if b = 0 then none else some (q * p / b)
  | _, _, _ => none

/-- Rows whose notional exceeds 10 percent of their balance. -/
def balanceIndices (df : DF) : List Nat :=
  if df.hasBalance then
    (List.range df.rows.length).filter (fun i =>
      match df.rows.get? i with
      | some r =>
        match pctBal r with
        | some v => decide (1/10 < v)
        | none => false
      | none => false)
  else []

/-- list(set(a) | set(b)): the members of either list, each once. -/
def indexUnion (a b : List Nat) : List Nat := a ++ b.filter (fun i => !a.contains i)

/-- The flag list detect_overtrading returns: the balance-rule indices,
unioned with the frequency-rule indices when some bucket exceeds 5. -/
def overtradingBiased (df : DF) : List Nat :=
  if 5 < maxPerHour df.rows then indexUnion (balanceIndices df) (freqIndices df.rows)
  else balanceIndices df

/-- The overtrading score before rounding. Note that pct_over_balance is
computed from the final flag list, after the frequency-rule union. -/
def overtradingScoreQ (df : DF) : ℚ :=
  let freqRat := (maxPerHour df.rows : ℚ) / max (meanPerHour df.rows) (1/2)
  let s1 : ℚ := if 1 < freqRat then min 50 ((freqRat - 1) * 25) else 0
  let pctOver : ℚ := ((overtradingBiased df).length : ℚ) / (max df.rows.length 1 : ℚ)
  min 100 (s1 + min 50 (pctOver * 250))

def detectOvertrading (df : DF) : Option Finding × List Nat :=
  if df.rows.length < 2 then (none, [])
  else if overtradingScoreQ df < 15 then (none, [])
  else
    (some ⟨"overtrading", sevStd (overtradingScoreQ df), pyRound (overtradingScoreQ df)⟩,
      overtradingBiased df)

/-- Each row paired with its predecessor (none for the first row). -/
def prevList (rows : List Trade) : List (Option Trade) := none :: rows.map some

def withPrev (rows : List Trade) : List (Trade × Option Trade) := rows.zip (prevList rows)

/-- Seconds since the previous trade; null at the first row or when
either timestamp is null. -/
def durSec (rp : Trade × Option Trade) : Option Int :=
  match rp.1.timestamp, rp.2.bind Trade.timestamp with
  | some t, some p => some (t - p)
  | _, _ => none

def durQ (rp : Trade × Option Trade) : Option ℚ := (durSec rp).map (fun d => (d : ℚ))

def laWins (df : DF) : List (Trade × Option Trade) :=
  (withPrev df.rows).filter (fun rp =>
    match rp.1.pnl with
    | some p => decide (0 < p)
    | none => false)

def laLosses (df : DF) : List (Trade × Option Trade) :=
  (withPrev df.rows).filter (fun rp =>
    match rp.1.pnl with
    | some p => decide (p < 0)
    | none => false)

def laWinsValid (df : DF) : List (Trade × Option Trade) :=
  (laWins df).filter (fun rp => (durSec rp).isSome)

def laLossesValid (df : DF) : List (Trade × Option Trade) :=
  (laLosses df).filter (fun rp => (durSec rp).isSome)

def laScoreQ (df : DF) : ℚ :=
  let avgDurWin := meanD ((laWinsValid df).filterMap durQ)
  let avgDurLoss := meanD ((laLossesValid df).filterMap durQ)
  let avgLoss := meanD ((laLosses df).filterMap (fun rp => rp.1.pnl.map abs))
  let avgWin := meanD ((laWins df).filterMap (fun rp => rp.1.pnl))
  let lossWinRat : ℚ := if avgWin = 0 then 0 else avgLoss / avgWin
  let durationRat : ℚ := if 0 < avgDurWin then avgDurLoss / avgDurWin else 0
  let s1 : ℚ := if 11/10 < durationRat then min 50 ((durationRat - 1) * 40) else 0
  let s2 : ℚ := if 11/10 < lossWinRat then min 50 ((lossWinRat - 1) * 25) else 0
  min 100 (s1 + s2)

/-- Median with linear interpolation (Series.median over non-nulls). -/
def medianLin (l : List ℚ) : Option ℚ :=
  let s := sortL (fun a b => decide (a ≤ b)) l
  if s.length = 0 then none
  else if s.length % 2 = 1 then s.get? (s.length / 2)
  else
    match s.get? (s.length / 2 - 1), s.get? (s.length / 2) with
    | some a, some b => some ((a + b) / 2)
    | _, _ => none

/-- The predecessor of row i, as produced by shift(1). -/
def prevOf (rows : List Trade) (i : Nat) : Option Trade :=
  if i = 0 then none else rows.get? (i - 1)

/-- Losing rows whose inter-trade duration is finite and at least the
median loss duration. -/
def laBiased (df : DF) : List Nat :=
  let m := medianLin ((laLosses df).filterMap durQ)
  (List.range df.rows.length).filter (fun i =>
    match df.rows.get? i with
    | some r =>
        (match r.pnl with
         | some p => decide (p < 0)
         | none => false)
        && (match durQ (r, prevOf df.rows i), m with
            | some d, some med => decide (med ≤ d)
            | _, _ => false)
    | none => false)

def detectLossAversion (df : DF) : Option Finding × List Nat :=
  if !df.hasPnl || df.rows.length < 3 then (none, [])
  else if (laWins df).length = 0 || (laLosses df).length = 0 then (none, [])
  else if (laWinsValid df).length = 0 || (laLossesValid df).length = 0 then (none, [])
  else if laScoreQ df < 15 then (none, [])
  else
    (some ⟨"loss_aversion", sevAlt (laScoreQ df), pyRound (laScoreQ df)⟩, laBiased df)

/-- The revenge-trading row mask: previous pnl negative, a positive time
gap of at most 30 minutes, quantity above 1.5 times the previous quantity
with a null previous quantity filled by 0. -/
def revengeMask (hasPnl : Bool) (rp : Trade × Option Trade) : Bool :=
  (match (if hasPnl then rp.2.bind Trade.pnl else none) with
   | some p => decide (p < 0)
   | none => false)
  && (match rp.1.timestamp, rp.2.bind Trade.timestamp with
      | some t, some pt => decide (t - pt ≤ 1800) && decide (0 < t - pt)
      | _, _ => false)
  && (match rp.1.quantity with
      | some q => decide ((3/2 : ℚ) * ((rp.2.bind Trade.quantity).getD 0) < q)
      | none => false)

def revengeBiased (df : DF) : List Nat :=
  (List.range df.rows.length).filter (fun i =>
    match df.rows.get? i with
    | some r => revengeMask df.hasPnl (r, prevOf df.rows i)
    | none => false)

def revengeScoreQ (df : DF) : ℚ :=
  if (revengeBiased df).length = 0 then 0
  else min 100 (((revengeBiased df).length : ℚ) / (max df.rows.length 1 : ℚ) * 400)

def detectRevengeTrading (df : DF) : Option Finding × List Nat :=
  if df.rows.length < 2 then (none, [])
  else if revengeScoreQ df < 15 then (none, [])
  else
    (some ⟨"revenge_trading", sevAlt (revengeScoreQ df), pyRound (revengeScoreQ df)⟩,
      revengeBiased df)

/-- Per-trade return proxy: pnl / |quantity * price|, the zero notional
replaced by null before the division; null propagates from any cell. -/
def retOf (r : Trade) : Option ℚ :=
  match r.pnl, r.quantity, r.price with
  | some pnl, some q, some p =>
      let nt := |q * p|
      if nt = 0 then none else some (pnl / nt)
  | _, _, _ => none

def dpWins (df : DF) : List Trade :=
  df.rows.filter (fun r =>
    (match r.pnl with
     | some p => decide (0 < p)
     | none => false) && (retOf r).isSome)

def dpLosses (df : DF) : List Trade :=
  df.rows.filter (fun r =>
    (match r.pnl with
     | some p => decide (p < 0)
     | none => false) && (retOf r).isSome)

def dpAvgWinMove (df : DF) : ℚ :=
  meanD ((dpWins df).filterMap (fun r => (retOf r).map abs))

def dpAvgLossMove (df : DF) : ℚ :=
  meanD ((dpLosses df).filterMap (fun r => (retOf r).map abs))

def dpMoveRat (df : DF) : ℚ := dpAvgLossMove df / dpAvgWinMove df

def dpScoreQ (df : DF) : ℚ :=
  let lossShare : ℚ := ((dpLosses df).length : ℚ) / (max df.rows.length 1 : ℚ)
  min 100 (max 0 ((dpMoveRat df - 1) * 55) + min 35 (lossShare * 35))

/-- Losing rows whose return magnitude reaches the mean winner move. -/
def dpBiased (df : DF) : List Nat :=
  (List.range df.rows.length).filter (fun i =>
    match df.rows.get? i with
    | some r =>
        (match r.pnl with
         | some p => decide (p < 0)
         | none => false)
        && (match retOf r with
            | some v => decide (dpAvgWinMove df ≤ |v|)
            | none => false)
    | none => false)

def detectDispositionEffect (df : DF) : Option Finding × List Nat :=
  if !df.hasPnl || df.rows.length < 8 then (none, [])
  else if (dpWins df).length < 3 || (dpLosses df).length < 3 then (none, [])
  else if dpAvgWinMove df ≤ 0 then (none, [])
  else if dpMoveRat df ≤ 6/5 then (none, [])
  else if dpScoreQ df < 15 then (none, [])
  else
    (some ⟨"disposition_effect", sevStd (dpScoreQ df), pyRound (dpScoreQ df)⟩, dpBiased df)

/-- The distinct asset group keys. -/
def assetKeys (rows : List Trade) : List (Option String) := (rows.map Trade.asset).dedup

def assetCount (rows : List Trade) (a : Option String) : Nat :=
  rows.countP (fun r => decide (r.asset = a))

def assetPrices (rows : List Trade) (a : Option String) : List ℚ :=
  (rows.filter (fun r => decide (r.asset = a))).filterMap Trade.price

/-- Sample standard deviation (ddof 1) of the group prices through the
supplied square root; the null produced for fewer than two non-null
values is filled with 0. -/
def stdPrice (sq : ℚ → ℚ) (ps : List ℚ) : ℚ :=
  if ps.length < 2 then 0
  else sq (((ps.map (fun x => (x - meanD ps) * (x - meanD ps))).sum) / ((ps.length : ℚ) - 1))

/-- Asset groups with at least 4 trades and a positive mean price. -/
def anQualified (df : DF) : List (Option String) :=
  (assetKeys df.rows).filter (fun a =>
    decide (4 ≤ assetCount df.rows a)
      && (let ps := assetPrices df.rows a
          decide (ps.length ≠ 0) && decide (0 < meanD ps)))

def anCv (sq : ℚ → ℚ) (df : DF) (a : Option String) : ℚ :=
  stdPrice sq (assetPrices df.rows a) / meanD (assetPrices df.rows a)

def anAnchored (sq : ℚ → ℚ) (df : DF) : List (Option String) :=
  (anQualified df).filter (fun a => decide (anCv sq df a ≤ 3/50))

def anScoreQ (sq : ℚ → ℚ) (df : DF) : ℚ :=
  let anchoredCount : Nat := df.rows.countP (fun r => decide (r.asset ∈ anAnchored sq df))
  let share : ℚ := (anchoredCount : ℚ) / (max df.rows.length 1 : ℚ)
  let avgCv := meanD ((anAnchored sq df).map (anCv sq df))
  let tightness : ℚ := max 0 ((2/25 - avgCv) / (2/25))
  min 100 (share * 70 + tightness * 20 + ((anAnchored sq df).length : ℚ) * 6)

def anBiased (sq : ℚ → ℚ) (df : DF) : List Nat :=
  (List.range df.rows.length).filter (fun i =>
    match df.rows.get? i with
    | some r => decide (r.asset ∈ anAnchored sq df)
    | none => false)

def detectAnchoringBias (sq : ℚ → ℚ) (df : DF) : Option Finding × List Nat :=
  if df.rows.length < 10 then (none, [])
  else if (anQualified df).length = 0 then (none, [])
  else if (anAnchored sq df).length = 0 then (none, [])
  else if anScoreQ sq df < 15 then (none, [])
  else
    (some ⟨"anchoring", sevStd (anScoreQ sq df), pyRound (anScoreQ sq df)⟩, anBiased sq df)

def cfBuyCount (rows : List Trade) (a : Option String) : Nat :=
  rows.countP (fun r => decide (r.asset = a) && (r.action == "buy"))

def cfSellCount (rows : List Trade) (a : Option String) : Nat :=
  rows.countP (fun r => decide (r.asset = a) && (r.action == "sell"))

/-- The dominant side of an asset; buy wins ties as in the source. -/
def cfDominantSide (rows : List Trade) (a : Option String) : String :=
  if cfSellCount rows a ≤ cfBuyCount rows a then "buy" else "sell"

def cfDominantRat (rows : List Trade) (a : Option String) : ℚ :=
  ((max (cfBuyCount rows a) (cfSellCount rows a) : Nat) : ℚ) / ((assetCount rows a : Nat) : ℚ)

def cfByAsset (df : DF) : List (Option String) :=
  (assetKeys df.rows).filter (fun a => decide (4 ≤ assetCount df.rows a))

def cfBiasedAssets (df : DF) : List (Option String) :=
  (cfByAsset df).filter (fun a => decide (41/50 ≤ cfDominantRat df.rows a))

/-- Rows of a biased asset whose action equals the dominant side. -/
def cfBiased (df : DF) : List Nat :=
  (List.range df.rows.length).filter (fun i =>
    match df.rows.get? i with
    | some r =>
        decide (r.asset ∈ cfBiasedAssets df)
          && (r.action == cfDominantSide df.rows r.asset)
    | none => false)

def cfScoreQ (df : DF) : ℚ :=
  let share : ℚ := ((cfBiased df).length : ℚ) / (max df.rows.length 1 : ℚ)
  let avgRat := meanD ((cfBiasedAssets df).map (cfDominantRat df.rows))
  min 100 (share * 65 + max 0 (avgRat - 7/10) * 100 + ((cfBiasedAssets df).length : ℚ) * 5)

def detectConfirmationBias (df : DF) : Option Finding × List Nat :=
  if df.rows.length < 10 then (none, [])
  else if (cfByAsset df).length = 0 then (none, [])
  else if (cfBiasedAssets df).length = 0 then (none, [])
  else if cfScoreQ df < 15 then (none, [])
  else
    (some ⟨"confirmation_bias", sevStd (cfScoreQ df), pyRound (cfScoreQ df)⟩, cfBiased df)

/-- One serialized output trade of run_analysis; the strftime timestamp
string is modelled by the epoch value it formats. -/
structure TradeOut where
  timestamp : Option Int
  buySell : String
  asset : Option String
  quantity : Option ℚ
  price : Option ℚ
  pL : Option ℚ
  balance : Option ℚ
deriving DecidableEq, Repr

def serializeTrade (hasPnl hasBalance : Bool) (r : Trade) : TradeOut :=
  ⟨r.timestamp, r.action, r.asset, r.quantity, r.price,
    if hasPnl then r.pnl else none,
    if hasBalance then r.balance else none⟩

structure TradeFlags where
  overtrading : List Nat
  lossAversion : List Nat
  revengeTrading : List Nat
  dispositionEffect : List Nat
  anchoring : List Nat
  confirmationBias : List Nat
deriving DecidableEq, Repr

structure Report where
  biases : List Finding
  tradeFlags : TradeFlags
  biasScore : Int
  trades : List TradeOut
  totalTrades : Nat
  hourCounts : List Nat
  preprocess : Stats
deriving DecidableEq, Repr

/-- dt.hour() on epoch seconds. -/
def hourOfDay (t : Int) : Nat := ((t.emod 86400) / 3600).toNat

/-- The 24-bucket hour-of-day histogram of the cleaned table. -/
def hourCounts24 (rows : List Trade) : List Nat :=
  (List.range 24).map (fun h =>
    rows.countP (fun r =>
      match r.timestamp with
      | some t => decide (hourOfDay t = h)
      | none => false))

/-- Lines 620 to 628 of run_analysis: the composite score, taken as the
middle element of the sorted finding scores when their count is odd and
the mean of the two middle elements when it is even, then clamped to
[0, 100] and rounded. -/
def aggBiasScore (scores : List Int) : Int :=
  let raw : ℚ :=
    if scores.length = 0 then 0
    else
      let s := sortL (fun a b => decide (a ≤ b)) scores
      if scores.length % 2 = 1 then ((s.getD (scores.length / 2) 0 : Int) : ℚ)
      else (((s.getD (scores.length / 2 - 1) 0 : Int) : ℚ)
              + ((s.getD (scores.length / 2) 0 : Int) : ℚ)) / 2
  pyRound (min 100 (max 0 raw))

def TRADES_RESPONSE_CAP : Nat := 10000

def emptyFlags : TradeFlags := ⟨[], [], [], [], [], []⟩

def runAnalysis (sq : ℚ → ℚ) (keepLast : Bool) (df0 : DF) : Report :=
  let pre := preprocessTrades keepLast df0
  let df := pre.1
  if df.rows.length = 0 then
    ⟨[], emptyFlags, 0, [], 0, List.replicate 24 0, pre.2⟩
  else
    let tradesOut := (df.rows.take TRADES_RESPONSE_CAP).map (serializeTrade df.hasPnl df.hasBalance)
    let ot := detectOvertrading df
    let la := detectLossAversion df
    let rv := detectRevengeTrading df
    let dp := detectDispositionEffect df
    let an := detectAnchoringBias sq df
    let cf := detectConfirmationBias df
    let collected := [ot.1, la.1, rv.1, dp.1, an.1, cf.1].filterMap id
    let biases := sortL (fun a b => decide (b.score ≤ a.score)) collected
    ⟨biases,
      ⟨ot.2, la.2, rv.2, dp.2, an.2, cf.2⟩,
      aggBiasScore (biases.map Finding.score),
      tradesOut,
      df.rows.length,
      hourCounts24 df.rows,
      pre.2⟩

/-! Definitions written from the claim wording, to be compared with the
embedded source. -/

/-- Modelled from the claim wording of C1: the median of the scores taken
as the lower of the two middle values when the count is even. -/
def medianLowerSpec (scores : List Int) : Int :=
  (sortL (fun a b => decide (a ≤ b)) scores).getD ((scores.length - 1) / 2) 0

/-- Modelled from the spec wording for the amended C1: the standard
median - the mean of the two central order statistics of the sorted
scores, which coincide when the count is odd. -/
def medianStdSpec (scores : List Int) : ℚ :=
  let s := sortL (fun a b => decide (a ≤ b)) scores
  (((s.getD ((scores.length - 1) / 2) 0 : Int) : ℚ)
      + ((s.getD (scores.length / 2) 0 : Int) : ℚ)) / 2

/-- Modelled from the claim wording of C3: the number of rows removed by
the five validity predicates plus the timestamp-range filter. -/
def invalidRemovedCount (df : DF) : Nat :=
  df.rows.length - ((df.rows.filter validRow).filter inTsRange).length

/-- Modelled from the claim wording of C6: at least two rows, i at least
1, the immediately preceding row has negative pnl, row i is at most 30
minutes after it, and row i quantity exceeds 1.5 times the preceding
quantity. -/
def claimRevengeConds (df : DF) (i : Nat) : Bool :=
  decide (2 ≤ df.rows.length) && decide (1 ≤ i)
    && (match df.rows.get? i, df.rows.get? (i - 1) with
        | some r, some p =>
            (match p.pnl with
             | some x => decide (x < 0)
             | none => false)
            && (match r.timestamp, p.timestamp with
                | some t, some pt => decide (t ≤ pt + 1800)
                | _, _ => false)
            && (match r.quantity, p.quantity with
                | some q, some pq => decide ((3/2 : ℚ) * pq < q)
                | _, _ => false)
        | _, _ => false)

/-- The strictly positive inter-trade gap the source mask additionally
requires at row i. -/
def strictGapAt (df : DF) (i : Nat) : Bool :=
  match df.rows.get? i, df.rows.get? (i - 1) with
  | some r, some p =>
      (match r.timestamp, p.timestamp with
       | some t, some pt => decide (pt < t)
       | _, _ => false)
  | _, _ => false

/-! Concrete inputs used by the counterexamples and witnesses. -/

def mkRow (ts : Int) (act asst : String) (q p : ℚ) (pnl bal : Option ℚ) : Trade :=
  ⟨some ts, act, some asst, some q, some p, pnl, bal⟩

/-- Two valid trades ten minutes apart: a loss followed by a 3x-sized
buy, both with notional above 10 percent of balance; yields exactly the
revenge-trading (score 100) and overtrading (score 50) findings. -/
def exDF : DF := ⟨true, true,
  [mkRow 1600000000 "buy" "A" 1 100 (some (-50)) (some 500),
   mkRow 1600000600 "buy" "A" 3 100 (some 10) (some 500)]⟩

/-- Seven trades inside one clock hour whose notionals are far below 10
percent of balance; only the frequency rule flags rows. -/
def exOver : DF := ⟨false, true,
  (List.range 7).map (fun i =>
    mkRow (1600000000 + 60 * (i : Int)) "buy" "A" 1 10 none (some 1000000))⟩

/-- A single row failing the quantity validity predicate. -/
def exInvalid : DF := ⟨true, true, [mkRow 1600000000 "buy" "A" 0 10 none none]⟩

/-- Two rows agreeing on the whole dedup key but with different pnl. -/
def dupA : Trade := mkRow 1600000000 "buy" "A" 1 10 (some (-5)) (some 100)

def dupB : Trade := mkRow 1600000000 "buy" "A" 1 10 (some 7) (some 100)

def exDup : DF := ⟨true, true, [dupA, dupB]⟩

/-- A valid row whose timestamp is exactly epoch 1893456000. -/
def boundaryRow : Trade := mkRow 1893456000 "buy" "A" 1 10 none none

def exBoundary : DF := ⟨true, true, [boundaryRow]⟩

/-- A loss and a simultaneous 3x-sized trade: zero inter-trade gap. -/
def df6a : DF := ⟨true, false,
  [mkRow 1600000000 "buy" "A" 1 10 (some (-50)) none,
   mkRow 1600000000 "buy" "B" 3 10 none none]⟩

/-- Thirty rows with exactly one revenge pattern at index 1, so that the
revenge score 400/30 falls below the suppression threshold 15. -/
def df6b : DF := ⟨true, false,
  mkRow 1600000000 "buy" "A" 1 10 (some (-50)) none ::
    mkRow 1600000600 "buy" "A" 3 10 none none ::
    (List.range 28).map (fun i =>
      mkRow (1600003600 + 3600 * (i : Int)) "buy" "F" 1 10 none none)⟩

/-- Scenario C of the spec: a loss at t0, then a buy at t0 plus ten
minutes with twice the quantity. -/
def exScenC : DF := ⟨true, false,
  [mkRow 1600000000 "sell" "A" 1 10 (some (-50)) none,
   mkRow 1600000600 "buy" "A" 2 10 none none]⟩

/-- Seven same-hour trades; row 0 has balance exactly 0, the others a
balance small enough for the 10-percent rule. -/
def exZeroBal : DF := ⟨false, true,
  mkRow 1600000000 "buy" "Z" 1 10 none (some 0) ::
    (List.range 6).map (fun i =>
      mkRow (1600000060 + 60 * (i : Int)) "buy" "A" 1 10 none (some 20))⟩

/-- The empty normalized table. -/
def exEmpty : DF := ⟨true, true, []⟩

/-! ### Helper lemmas -/

unseal Rat.add Rat.mul Rat.inv Rat.sub

theorem pyRound_ge (a : Int) (x : ℚ) (h : (a : ℚ) ≤ x) : a ≤ pyRound x := by
  have hf : a ≤ ⌊x⌋ := Int.le_floor.mpr h
  simp only [pyRound]
  split_ifs <;> omega

theorem pyRound_le (b : Int) (x : ℚ) (h : x ≤ (b : ℚ)) : pyRound x ≤ b := by
  have hfl : (⌊x⌋ : ℚ) ≤ x := Int.floor_le x
  have hfb : ⌊x⌋ ≤ b := by
    have hq : (⌊x⌋ : ℚ) ≤ (b : ℚ) := le_trans hfl h
    exact_mod_cast hq
  simp only [pyRound]
  split_ifs with h1 h2 h3
  · exact hfb
  · have hq : (⌊x⌋ : ℚ) < (b : ℚ) := by linarith
    have hlt : ⌊x⌋ < b := by exact_mod_cast hq
    omega
  · exact hfb
  · have heq : x - (⌊x⌋ : ℚ) = 1/2 := le_antisymm (not_lt.mp h2) (not_lt.mp h1)
    have hq : (⌊x⌋ : ℚ) < (b : ℚ) := by linarith
    have hlt : ⌊x⌋ < b := by exact_mod_cast hq
    omega

theorem pyRound_clamp_bounds (x : ℚ) :
    0 ≤ pyRound (min 100 (max 0 x)) ∧ pyRound (min 100 (max 0 x)) ≤ 100 :=
  ⟨pyRound_ge 0 _ (by push_cast; exact le_min (by norm_num) (le_max_left _ _)),
    pyRound_le 100 _ (by push_cast; exact min_le_left _ _)⟩

theorem aggBiasScore_bounds (l : List Int) :
    0 ≤ aggBiasScore l ∧ aggBiasScore l ≤ 100 := by
  unfold aggBiasScore
  exact pyRound_clamp_bounds _

theorem aggBiasScore_nil : aggBiasScore [] = 0 := by decide

theorem aggBiasScore_eq_medianStd (l : List Int) (h : l ≠ []) :
    aggBiasScore l = pyRound (min 100 (max 0 (medianStdSpec l))) := by
  have hn : ¬ l.length = 0 := by simp [List.length_eq_zero, h]
  have hq : ∀ q : ℚ, (q + q) / 2 = q := fun q => by ring
  unfold aggBiasScore medianStdSpec
  by_cases hodd : l.length % 2 = 1
  · have he : (l.length - 1) / 2 = l.length / 2 := by omega
    simp only [if_neg hn, if_pos hodd, he, hq]
  · have he : (l.length - 1) / 2 = l.length / 2 - 1 := by omega
    simp only [if_neg hn, if_neg hodd, he]

theorem orderedInsert_perm (le : α → α → Bool) (a : α) (l : List α) :
    (orderedInsert le a l).Perm (a :: l) := by
  induction l with
  | nil => simp [orderedInsert]
  | cons b t ih =>
      simp only [orderedInsert]
      split_ifs
      · exact List.Perm.refl _
      · exact (ih.cons b).trans (List.Perm.swap a b t)

theorem sortL_perm (le : α → α → Bool) (l : List α) : (sortL le l).Perm l := by
  induction l with
  | nil => simp [sortL]
  | cons a t ih => exact (orderedInsert_perm le a (sortL le t)).trans (ih.cons a)

theorem mem_dedupFirstAux {seen : List (Option Int × Option String × String × Option ℚ × Option ℚ)}
    {l : List Trade} {r : Trade} (h : r ∈ dedupFirstAux seen l) : r ∈ l := by
  induction l generalizing seen with
  | nil => simp [dedupFirstAux] at h
  | cons a t ih =>
      simp only [dedupFirstAux] at h
      split_ifs at h
      · exact List.mem_cons_of_mem _ (ih h)
      · rcases List.mem_cons.mp h with h1 | h2
        · simp [h1]
        · exact List.mem_cons_of_mem _ (ih h2)

theorem mem_dedupLast {l : List Trade} {r : Trade} (h : r ∈ dedupLast l) : r ∈ l := by
  induction l with
  | nil => simp [dedupLast] at h
  | cons a t ih =>
      simp only [dedupLast] at h
      split_ifs at h
      · exact List.mem_cons_of_mem _ (ih h)
      · rcases List.mem_cons.mp h with h1 | h2
        · simp [h1]
        · exact List.mem_cons_of_mem _ (ih h2)

theorem mem_dedupKeep {b : Bool} {l : List Trade} {r : Trade}
    (h : r ∈ dedupKeep b l) : r ∈ l := by
  unfold dedupKeep at h
  split_ifs at h
  · exact mem_dedupLast h
  · exact mem_dedupFirstAux h

theorem outlierFilterCol_sublist (proj : Trade → Option ℚ) (l : List Trade) :
    (outlierFilterCol proj l).Sublist l := by
  unfold outlierFilterCol
  split_ifs with h1 h2
  · exact List.Sublist.refl _
  · exact List.Sublist.refl _
  · split
    · split_ifs with h3
      · exact List.Sublist.refl _
      · exact List.filter_sublist _
    · exact List.Sublist.refl _

theorem mem_outlierIf {c : Bool} {proj : Trade → Option ℚ} {l : List Trade} {r : Trade}
    (h : r ∈ (if c then outlierFilterCol proj l else l)) : r ∈ l := by
  split_ifs at h
  · exact (outlierFilterCol_sublist proj l).subset h
  · exact h

/-- Every row surviving preprocess_trades passed the validity predicates
and the range filter and stems from the input table. -/
theorem mem_preprocess_rows {b : Bool} {df : DF} {r : Trade}
    (h : r ∈ (preprocessTrades b df).1.rows) :
    validRow r = true ∧ inTsRange r = true ∧ r ∈ df.rows := by
  simp only [preprocessTrades] at h
  by_cases h0 : df.rows.length = 0
  · rw [if_pos h0] at h
    rw [List.length_eq_zero] at h0
    rw [h0] at h
    simp at h
  · rw [if_neg h0] at h
    by_cases h1 : (df.rows.filter validRow).length = 0
    · rw [if_pos h1] at h
      rw [List.length_eq_zero] at h1
      simp only [h1] at h
      simp at h
    · rw [if_neg h1] at h
      unfold sortByTs at h
      replace h := (sortL_perm tsLe _).mem_iff.mp h
      replace h := mem_dedupKeep h
      replace h := mem_outlierIf h
      replace h := mem_outlierIf h
      rcases List.mem_filter.mp h with ⟨hv, hrange⟩
      rcases List.mem_filter.mp hv with ⟨hmem, hvalid⟩
      exact ⟨hvalid, hrange, hmem⟩

theorem aggBiasScore_cases (fs : List Finding) :
    aggBiasScore (fs.map Finding.score) =
      (if fs = [] then 0
       else pyRound (min 100 (max 0 (medianStdSpec (fs.map Finding.score))))) := by
  by_cases hb : fs = []
  · rw [if_pos hb, hb]
    simpa using aggBiasScore_nil
  · rw [if_neg hb]
    exact aggBiasScore_eq_medianStd _ (by simpa using hb)

theorem dedupFirstAux_pairwise (seen : List (Option Int × Option String × String × Option ℚ × Option ℚ))
    (l : List Trade) :
    (dedupFirstAux seen l).Pairwise (fun a c => rowKey a ≠ rowKey c) ∧
      ∀ r ∈ dedupFirstAux seen l, rowKey r ∉ seen := by
  induction l generalizing seen with
  | nil => simp [dedupFirstAux]
  | cons a t ih =>
      simp only [dedupFirstAux]
      split_ifs with hm
      · exact ih seen
      · rcases ih (rowKey a :: seen) with ⟨hp, hs⟩
        refine ⟨List.Pairwise.cons ?_ hp, ?_⟩
        · intro x hx he
          exact hs x hx (by simp [he.symm])
        · intro r hr
          rcases List.mem_cons.mp hr with h1 | h2
          · rw [h1]; exact hm
          · intro hin
            exact hs r h2 (by simp [hin])

theorem dedupLast_pairwise (l : List Trade) :
    (dedupLast l).Pairwise (fun a c => rowKey a ≠ rowKey c) := by
  induction l with
  | nil => simp [dedupLast]
  | cons a t ih =>
      simp only [dedupLast]
      split_ifs with hm
      · exact ih
      · refine List.Pairwise.cons ?_ ih
        intro x hx he
        apply hm
        rw [List.any_eq_true]
        exact ⟨x, mem_dedupLast hx, decide_eq_true he.symm⟩

theorem dedupKeep_pairwise (b : Bool) (l : List Trade) :
    (dedupKeep b l).Pairwise (fun a c => rowKey a ≠ rowKey c) := by
  unfold dedupKeep
  split_ifs
  · exact dedupLast_pairwise l
  · exact (dedupFirstAux_pairwise [] l).1

theorem dedupFirstAux_eq_self (seen : List (Option Int × Option String × String × Option ℚ × Option ℚ))
    (l : List Trade) (hp : l.Pairwise (fun a c => rowKey a ≠ rowKey c))
    (hs : ∀ r ∈ l, rowKey r ∉ seen) :
    dedupFirstAux seen l = l := by
  induction l generalizing seen with
  | nil => simp [dedupFirstAux]
  | cons a t ih =>
      rcases List.pairwise_cons.mp hp with ⟨ha, ht⟩
      simp only [dedupFirstAux]
      rw [if_neg (hs a (List.mem_cons_self a t))]
      congr 1
      apply ih _ ht
      intro r hr
      simp only [List.mem_cons]
      rintro (h1 | h2)
      · exact ha r hr h1.symm
      · exact hs r (List.mem_cons_of_mem _ hr) h2

theorem dedupLast_eq_self (l : List Trade)
    (hp : l.Pairwise (fun a c => rowKey a ≠ rowKey c)) :
    dedupLast l = l := by
  induction l with
  | nil => simp [dedupLast]
  | cons a t ih =>
      rcases List.pairwise_cons.mp hp with ⟨ha, ht⟩
      have hne : ¬ (t.any (fun x => decide (rowKey x = rowKey a)) = true) := by
        rw [List.any_eq_true]
        rintro ⟨x, hx, hdx⟩
        exact ha x hx (of_decide_eq_true hdx).symm
      simp only [dedupLast]
      rw [if_neg hne, ih ht]

theorem dedupKeep_eq_self (b : Bool) (l : List Trade)
    (hp : l.Pairwise (fun a c => rowKey a ≠ rowKey c)) :
    dedupKeep b l = l := by
  unfold dedupKeep
  split_ifs
  · exact dedupLast_eq_self l hp
  · exact dedupFirstAux_eq_self [] l hp (by simp)

/-- With pairwise-distinct dedup keys the whole preprocessing is the same
under every admissible resolution of the keep-any unique call. -/
theorem preprocess_choice_irrelevant (b1 b2 : Bool) (df : DF)
    (h : df.rows.Pairwise (fun a c => rowKey a ≠ rowKey c)) :
    preprocessTrades b1 df = preprocessTrades b2 df := by
  simp only [preprocessTrades]
  by_cases h0 : df.rows.length = 0
  · simp only [if_pos h0]
  · simp only [if_neg h0]
    by_cases h1 : (df.rows.filter validRow).length = 0
    · simp only [if_pos h1]
    · simp only [if_neg h1]
      set r2 := (df.rows.filter validRow).filter inTsRange with hr2
      set r3 := if df.hasPnl then outlierFilterCol Trade.pnl r2 else r2 with hr3
      set r4 := if df.hasBalance then outlierFilterCol Trade.balance r3 else r3 with hr4
      have h2 : r2.Pairwise (fun a c => rowKey a ≠ rowKey c) := (h.filter _).filter _
      have h3 : r3.Pairwise (fun a c => rowKey a ≠ rowKey c) := by
        rw [hr3]
        split_ifs
        · exact List.Pairwise.sublist (outlierFilterCol_sublist _ _) h2
        · exact h2
      have h4 : r4.Pairwise (fun a c => rowKey a ≠ rowKey c) := by
        rw [hr4]
        split_ifs
        · exact List.Pairwise.sublist (outlierFilterCol_sublist _ _) h3
        · exact h3
      rw [dedupKeep_eq_self b1 r4 h4, dedupKeep_eq_self b2 r4 h4]

/-! ### Theorems settling the claims -/

/-- C1 (amended): the composite bias_score equals the standard median of
the finding scores - the mean of the two middle values when the count is
even, not the lower one - clamped to [0, 100] and rounded half-to-even;
it is 0 when no findings are collected. -/
theorem C1_bias_score_is_standard_median (sq : ℚ → ℚ) (b : Bool) (df : DF) :
    (runAnalysis sq b df).biasScore =
      (if (runAnalysis sq b df).biases = [] then 0
       else pyRound (min 100 (max 0 (medianStdSpec
         ((runAnalysis sq b df).biases.map Finding.score))))) := by
  by_cases hr : (preprocessTrades b df).1.rows = []
  · simp [runAnalysis, hr]
  · have hc : ¬ (preprocessTrades b df).1.rows.length = 0 := by
      simpa [List.length_eq_zero] using hr
    simp only [runAnalysis, if_neg hc]
    exact aggBiasScore_cases _

/-- C1, counterexample: on exDF the pipeline collects findings with
scores 100 and 50, and reports the rounded mean 75 of the two middle
values, not the lower middle value 50 the claim demands. -/
theorem C1_counterexample :
    (runAnalysis (fun _ => 0) false exDF).biases.map Finding.score = [100, 50] ∧
      (runAnalysis (fun _ => 0) false exDF).biasScore = 75 ∧
      medianLowerSpec [100, 50] = 50 := by decide

/-- C2, divergence witness for the code bug: on exOver no row's notional
exceeds 10 percent of its balance (so the share the comment and spec
describe is 0 and the balance component should be 0), yet the detector
unions the frequency-rule rows into biased_indices before computing
pct_over_balance and returns a finding with score 50 built entirely from
the balance component. -/
theorem C2_balance_component_divergence :
    balanceIndices exOver = [] ∧
      (detectOvertrading exOver).1 = some ⟨"overtrading", "medium", 50⟩ ∧
      (detectOvertrading exOver).2 = [0, 1, 2, 3, 4, 5, 6] := by decide

/-- C3, counterexample: when the validity filter removes every row the
function returns early and reports dropped_invalid equal to 0 although
one row was removed. -/
theorem C3_counterexample :
    (preprocessTrades false exInvalid).2.droppedInvalid = 0 ∧
      invalidRemovedCount exInvalid = 1 := by decide

/-- C4, counterexample: keep-any deduplication may keep the later of two
key-equal rows; with the keep-last resolution the surviving row carries
dupB's pnl, not the earliest duplicate's. -/
theorem C4_counterexample :
    rowKey dupB = rowKey dupA ∧ dupA.pnl ≠ dupB.pnl ∧
      (preprocessTrades true exDup).1.rows = [dupB] := by decide

/-- C5, counterexample: a valid row with timestamp exactly epoch
1893456000 survives preprocessing, because the source range filter is
inclusive at the upper bound. -/
theorem C5_counterexample :
    validRow boundaryRow = true ∧ boundaryRow.timestamp = some 1893456000 ∧
      (preprocessTrades false exBoundary).1.rows = [boundaryRow] := by decide

/-- C6, counterexample: the claim conditions hold at index 1 of df6a
(zero time gap) and of df6b (score 400/30 below the suppression
threshold), yet the detector flags nothing in either table. -/
theorem C6_counterexample :
    (claimRevengeConds df6a 1 = true ∧ detectRevengeTrading df6a = (none, [])) ∧
      (claimRevengeConds df6b 1 = true ∧ detectRevengeTrading df6b = (none, [])) := by
  decide

/-- C7, counterexample: two contract-admissible resolutions of the
keep-any deduplication produce different reports from the same input. -/
theorem C7_counterexample :
    runAnalysis (fun _ => 0) false exDup ≠ runAnalysis (fun _ => 0) true exDup := by
  decide

/-- C3 (amended): dropped_invalid counts the rows removed by the five
validity predicates plus the range filter whenever at least one row
passes the validity predicates; the all-rows-invalid case returns early
with dropped_invalid 0. -/
theorem C3_dropped_invalid_count (b : Bool) (df : DF)
    (h : df.rows.filter validRow ≠ []) :
    (preprocessTrades b df).2.droppedInvalid = invalidRemovedCount df := by
  have h0 : ¬ df.rows.length = 0 := by
    intro hl
    rw [List.length_eq_zero] at hl
    exact h (by simp [hl])
  have h1 : ¬ (df.rows.filter validRow).length = 0 := by
    simpa [List.length_eq_zero] using h
  simp only [preprocessTrades, if_neg h0, if_neg h1, invalidRemovedCount]

/-- C3 witness: the amended count theorem applied to the one-row table
exBoundary, whose row passes the validity predicates. -/
theorem C3_dropped_invalid_count_witness :
    (preprocessTrades false exBoundary).2.droppedInvalid = invalidRemovedCount exBoundary :=
  C3_dropped_invalid_count false exBoundary (by decide)

/-- C5 (amended): every row surviving preprocess_trades has a timestamp
in the closed epoch interval from 631152000 to 1893456000 - the upper
bound is inclusive, unlike the half-open interval of the claim. -/
theorem C5_kept_rows_in_closed_range (b : Bool) (df : DF) (r : Trade)
    (h : r ∈ (preprocessTrades b df).1.rows) :
    ∃ t, r.timestamp = some t ∧ 631152000 ≤ t ∧ t ≤ 1893456000 := by
  rcases mem_preprocess_rows h with ⟨_, hrange, _⟩
  unfold inTsRange at hrange
  rcases ht : r.timestamp with _ | t
  · rw [ht] at hrange
    simp at hrange
  · rw [ht] at hrange
    simp only [Bool.and_eq_true, decide_eq_true_eq] at hrange
    exact ⟨t, rfl, hrange.1, hrange.2⟩

/-- C5 witness: the range bounds extracted for the boundary row kept by
preprocessing exBoundary. -/
theorem C5_kept_rows_in_closed_range_witness :
    ∃ t, boundaryRow.timestamp = some t ∧ 631152000 ≤ t ∧ t ≤ 1893456000 :=
  C5_kept_rows_in_closed_range false exBoundary boundaryRow (by decide)

/-- C9: when the cleaned table is empty, run_analysis returns the
well-formed empty report: no findings, all six empty flag lists, score
0, no trades, zero total and 24 zero hour buckets, with the
preprocessing stats passed through. -/
theorem C9_empty_report (sq : ℚ → ℚ) (b : Bool) (df : DF)
    (h : (preprocessTrades b df).1.rows = []) :
    runAnalysis sq b df =
      ⟨[], emptyFlags, 0, [], 0, List.replicate 24 0, (preprocessTrades b df).2⟩ := by
  simp [runAnalysis, h]

/-- C9 witness: the empty report produced from the table whose only row
is invalid. -/
theorem C9_empty_report_witness :
    runAnalysis (fun _ => 0) false exInvalid =
      ⟨[], emptyFlags, 0, [], 0, List.replicate 24 0, (preprocessTrades false exInvalid).2⟩ :=
  C9_empty_report (fun _ => 0) false exInvalid (by decide)

/-- C4 (amended): preprocessing keeps exactly one row per dedup key -
the surviving rows have pairwise distinct (timestamp, asset, action,
quantity, price) tuples and all stem from the input - but which of
several key-equal occurrences survives is left open by the keep-any
unique call, so no first-occurrence guarantee holds. -/
theorem C4_dedup_unique_keys (b : Bool) (df : DF) :
    (preprocessTrades b df).1.rows.Pairwise (fun a c => rowKey a ≠ rowKey c) ∧
      ∀ r ∈ (preprocessTrades b df).1.rows, r ∈ df.rows := by
  constructor
  · simp only [preprocessTrades]
    by_cases h0 : df.rows.length = 0
    · rw [if_pos h0]
      rw [List.length_eq_zero] at h0
      simp [h0]
    · rw [if_neg h0]
      by_cases h1 : (df.rows.filter validRow).length = 0
      · rw [if_pos h1]
        rw [List.length_eq_zero] at h1
        simp [h1]
      · rw [if_neg h1]
        have hsym : ∀ {x y : Trade},
            (fun a c => rowKey a ≠ rowKey c) x y → (fun a c => rowKey a ≠ rowKey c) y x :=
          fun h hc => h hc.symm
        unfold sortByTs
        rw [List.Perm.pairwise_iff hsym (sortL_perm tsLe _)]
        exact dedupKeep_pairwise b _
  · intro r hr
    exact (mem_preprocess_rows hr).2.2

/-- C4 witness: on exDup with the keep-last resolution, the surviving
row dupB indeed stems from the input rows. -/
theorem C4_dedup_unique_keys_witness : dupB ∈ exDup.rows :=
  (C4_dedup_unique_keys true exDup).2 dupB (by decide)

/-- C7 (amended): the pipeline is deterministic whenever the input has
no two rows sharing the full dedup key tuple - the report is the same
under every admissible resolution of the keep-any unique call. -/
theorem C7_deterministic_without_duplicates (sq : ℚ → ℚ) (b1 b2 : Bool) (df : DF)
    (h : df.rows.Pairwise (fun a c => rowKey a ≠ rowKey c)) :
    runAnalysis sq b1 df = runAnalysis sq b2 df := by
  unfold runAnalysis
  rw [preprocess_choice_irrelevant b1 b2 df h]

/-- C7 witness: the two resolutions agree on the duplicate-free one-row
table exBoundary. -/
theorem C7_deterministic_without_duplicates_witness :
    runAnalysis (fun _ => 0) false exBoundary = runAnalysis (fun _ => 0) true exBoundary :=
  C7_deterministic_without_duplicates (fun _ => 0) false true exBoundary (by decide)

/-- C10: a row whose balance is null or exactly 0 never enters the
balance-rule index list - the zero divisor is replaced by null before
the division, and null ratios fail the filter - so such a row can appear
among the overtrading flags only through the frequency rule. -/
theorem C10_zero_balance_not_flagged (df : DF) (i : Nat) (r : Trade)
    (hr : df.rows.get? i = some r)
    (hb : r.balance = none ∨ r.balance = some 0) :
    i ∉ balanceIndices df ∧
      (i ∈ (detectOvertrading df).2 → i ∈ freqIndices df.rows) := by
  have hpct : pctBal r = none := by
    unfold pctBal
    rcases hb with hb | hb <;> rw [hb] <;> cases r.quantity <;> cases r.price <;> simp
  have hnot : i ∉ balanceIndices df := by
    unfold balanceIndices
    split_ifs
    · intro hmem
      rcases List.mem_filter.mp hmem with ⟨_, hp⟩
      rw [hr] at hp
      simp [hpct] at hp
    · simp
  refine ⟨hnot, ?_⟩
  intro hmem
  unfold detectOvertrading at hmem
  split_ifs at hmem
  · simp at hmem
  · simp at hmem
  · unfold overtradingBiased at hmem
    split_ifs at hmem with hfreq
    · unfold indexUnion at hmem
      rcases List.mem_append.mp hmem with h1 | h2
      · exact absurd h1 hnot
      · exact List.mem_of_mem_filter h2
    · exact absurd hmem hnot

/-- C10 witness: row 0 of exZeroBal has balance 0; it is absent from the
balance-rule indices and reaches the flag list only via the frequency
rule. -/
theorem C10_zero_balance_not_flagged_witness :
    0 ∉ balanceIndices exZeroBal ∧
      (0 ∈ (detectOvertrading exZeroBal).2 → 0 ∈ freqIndices exZeroBal.rows) :=
  C10_zero_balance_not_flagged exZeroBal 0 (mkRow 1600000000 "buy" "Z" 1 10 none (some 0))
    (by decide) (Or.inr (by decide))

/-- C6 (amended): under the claim's conditions - at least 2 rows, i at
least 1, preceding pnl negative, at most 30 minutes after the preceding
row, quantity above 1.5 times the preceding one - index i is flagged by
detect_revenge_trading provided additionally the time gap is strictly
positive and the resulting score is not suppressed (at least 15). -/
theorem C6_revenge_flagged (df : DF) (i : Nat)
    (hp : df.hasPnl = true)
    (hc : claimRevengeConds df i = true)
    (hg : strictGapAt df i = true)
    (hs : (15 : ℚ) ≤ revengeScoreQ df) :
    i ∈ (detectRevengeTrading df).2 := by
  unfold claimRevengeConds at hc
  rcases hri : df.rows.get? i with _ | r
  · rw [hri] at hc
    simp at hc
  rcases hpi : df.rows.get? (i - 1) with _ | p
  · rw [hri, hpi] at hc
    simp at hc
  rw [hri, hpi] at hc
  dsimp only at hc
  rcases hpnl : p.pnl with _ | x
  · rw [hpnl] at hc
    simp at hc
  rcases hts : r.timestamp with _ | t
  · rw [hts] at hc
    simp at hc
  rcases hpts : p.timestamp with _ | pt
  · rw [hts, hpts] at hc
    simp at hc
  rcases hqv : r.quantity with _ | q
  · rw [hqv] at hc
    simp at hc
  rcases hpq : p.quantity with _ | pq
  · rw [hqv, hpq] at hc
    simp at hc
  rw [hpnl, hts, hpts, hqv, hpq] at hc
  simp only [Bool.and_eq_true, decide_eq_true_eq] at hc
  obtain ⟨⟨hn, hi1⟩, ⟨hx, hdt⟩, hq⟩ := hc
  have hgap : pt < t := by
    unfold strictGapAt at hg
    rw [hri, hpi] at hg
    dsimp only at hg
    rw [hts, hpts] at hg
    simpa using hg
  have hne0 : ¬ i = 0 := by omega
  have hmask : revengeMask df.hasPnl (r, prevOf df.rows i) = true := by
    unfold revengeMask prevOf
    rw [hp, if_neg hne0, hpi]
    simp [hpnl, hts, hpts, hqv, hpq]
    exact ⟨⟨hx, by omega, by omega⟩, by linarith⟩
  have hlt : i < df.rows.length := by
    rcases List.get?_eq_some.mp hri with ⟨hl, _⟩
    exact hl
  have hmem : i ∈ revengeBiased df := by
    unfold revengeBiased
    rw [List.mem_filter]
    refine ⟨List.mem_range.mpr hlt, ?_⟩
    simp only [hri]
    exact hmask
  unfold detectRevengeTrading
  rw [if_neg (by omega : ¬ df.rows.length < 2), if_neg (not_lt.mpr hs)]
  exact hmem

/-- C6 witness: Scenario C - a loss at t0 followed ten minutes later by
a buy with twice the quantity - puts index 1 in the revenge flags. -/
theorem C6_revenge_flagged_witness : 1 ∈ (detectRevengeTrading exScenC).2 :=
  C6_revenge_flagged exScenC 1 rfl (by decide) (by decide) (by decide)

theorem score_bounds_of (s : ℚ) (h15 : ¬ s < 15) (h100 : s ≤ 100) :
    15 ≤ pyRound s ∧ pyRound s ≤ 100 :=
  ⟨pyRound_ge 15 s (by exact_mod_cast not_lt.mp h15),
    pyRound_le 100 s (by exact_mod_cast h100)⟩

theorem overtradingScoreQ_le (df : DF) : overtradingScoreQ df ≤ 100 := by
  unfold overtradingScoreQ
  exact min_le_left _ _

theorem laScoreQ_le (df : DF) : laScoreQ df ≤ 100 := by
  unfold laScoreQ
  exact min_le_left _ _

theorem revengeScoreQ_le (df : DF) : revengeScoreQ df ≤ 100 := by
  unfold revengeScoreQ
  split_ifs
  · norm_num
  · exact min_le_left _ _

theorem dpScoreQ_le (df : DF) : dpScoreQ df ≤ 100 := by
  unfold dpScoreQ
  exact min_le_left _ _

theorem anScoreQ_le (sq : ℚ → ℚ) (df : DF) : anScoreQ sq df ≤ 100 := by
  unfold anScoreQ
  exact min_le_left _ _

theorem cfScoreQ_le (df : DF) : cfScoreQ df ≤ 100 := by
  unfold cfScoreQ
  exact min_le_left _ _

theorem detectOvertrading_score_bounds (df : DF) (f : Finding)
    (h : (detectOvertrading df).1 = some f) : 15 ≤ f.score ∧ f.score ≤ 100 := by
  unfold detectOvertrading at h
  split_ifs at h with h1 h2
  dsimp only at h
  injection h with h
  rw [← h]
  exact score_bounds_of _ h2 (overtradingScoreQ_le df)

theorem detectLossAversion_score_bounds (df : DF) (f : Finding)
    (h : (detectLossAversion df).1 = some f) : 15 ≤ f.score ∧ f.score ≤ 100 := by
  unfold detectLossAversion at h
  split_ifs at h with h1 h2 h3 h4
  dsimp only at h
  injection h with h
  rw [← h]
  exact score_bounds_of _ h4 (laScoreQ_le df)

theorem detectRevengeTrading_score_bounds (df : DF) (f : Finding)
    (h : (detectRevengeTrading df).1 = some f) : 15 ≤ f.score ∧ f.score ≤ 100 := by
  unfold detectRevengeTrading at h
  split_ifs at h with h1 h2
  dsimp only at h
  injection h with h
  rw [← h]
  exact score_bounds_of _ h2 (revengeScoreQ_le df)

theorem detectDispositionEffect_score_bounds (df : DF) (f : Finding)
    (h : (detectDispositionEffect df).1 = some f) : 15 ≤ f.score ∧ f.score ≤ 100 := by
  unfold detectDispositionEffect at h
  split_ifs at h with h1 h2 h3 h4 h5
  dsimp only at h
  injection h with h
  rw [← h]
  exact score_bounds_of _ h5 (dpScoreQ_le df)

theorem detectAnchoringBias_score_bounds (sq : ℚ → ℚ) (df : DF) (f : Finding)
    (h : (detectAnchoringBias sq df).1 = some f) : 15 ≤ f.score ∧ f.score ≤ 100 := by
  unfold detectAnchoringBias at h
  split_ifs at h with h1 h2 h3 h4
  dsimp only at h
  injection h with h
  rw [← h]
  exact score_bounds_of _ h4 (anScoreQ_le sq df)

theorem detectConfirmationBias_score_bounds (df : DF) (f : Finding)
    (h : (detectConfirmationBias df).1 = some f) : 15 ≤ f.score ∧ f.score ≤ 100 := by
  unfold detectConfirmationBias at h
  split_ifs at h with h1 h2 h3 h4
  dsimp only at h
  injection h with h
  rw [← h]
  exact score_bounds_of _ h4 (cfScoreQ_le df)

theorem mem_runAnalysis_biases (sq : ℚ → ℚ) (b : Bool) (df : DF) {f : Finding}
    (hf : f ∈ (runAnalysis sq b df).biases) : 15 ≤ f.score ∧ f.score ≤ 100 := by
  simp only [runAnalysis] at hf
  split_ifs at hf with hc
  · simp at hf
  · dsimp only at hf
    replace hf := (sortL_perm _ _).mem_iff.mp hf
    rw [List.mem_filterMap] at hf
    rcases hf with ⟨o, ho, hoo⟩
    rw [id_eq] at hoo
    subst hoo
    simp only [List.mem_cons, List.not_mem_nil, or_false] at ho
    rcases ho with h | h | h | h | h | h
    · exact detectOvertrading_score_bounds _ f h.symm
    · exact detectLossAversion_score_bounds _ f h.symm
    · exact detectRevengeTrading_score_bounds _ f h.symm
    · exact detectDispositionEffect_score_bounds _ f h.symm
    · exact detectAnchoringBias_score_bounds sq _ f h.symm
    · exact detectConfirmationBias_score_bounds _ f h.symm

theorem runAnalysis_biasScore_bounds (sq : ℚ → ℚ) (b : Bool) (df : DF) :
    0 ≤ (runAnalysis sq b df).biasScore ∧ (runAnalysis sq b df).biasScore ≤ 100 := by
  simp only [runAnalysis]
  split_ifs
  · exact ⟨le_refl 0, by norm_num⟩
  · exact aggBiasScore_bounds _

/-- C8: every finding in the report has an integer score between 15 and
100 (below-15 scores are suppressed, above-100 capped), and the
composite bias_score lies between 0 and 100. -/
theorem C8_scores_in_range (sq : ℚ → ℚ) (b : Bool) (df : DF) :
    ((runAnalysis sq b df).biases.all
        (fun f => decide (15 ≤ f.score) && decide (f.score ≤ 100))) = true ∧
      0 ≤ (runAnalysis sq b df).biasScore ∧ (runAnalysis sq b df).biasScore ≤ 100 := by
  refine ⟨List.all_eq_true.mpr ?_, runAnalysis_biasScore_bounds sq b df⟩
  intro f hf
  rcases mem_runAnalysis_biases sq b df hf with ⟨h1, h2⟩
  simp [h1, h2]

end BiasEngine
